import Mathlib

/-
Verification of the map access and batching subsystem of the rxdp crate.

The embedding is shallow: each Rust function from src/ is translated to a
Lean definition over explicit data. Kernel syscalls are modelled as oracle
parameters carrying the values the kernel would write back (return code,
errno after the call, output buffers); the errno cell is threaded
explicitly. Fallible Rust code returning XDPResult is embedded as Except.
Functions that can issue syscalls additionally return the list of syscalls
they issued, so that claims of the form "no syscall is attempted" are
expressible.
-/

namespace Rxdp

/-- Embedding of MapType from src/map_types.rs (one constructor per Rust
variant, same order and numeric codes). -/
inductive MapType where
  | Unspec
  | Hash
  | Array
  | ProgArray
  | PerfEventArray
  | PerCPUHash
  | PerCPUArray
  | StackTrace
  | CgroupArray
  | LRUHash
  | LRUPerCPUHash
  | LPMTrie
  | ArrayOfMaps
  | HashOfMaps
  | DevMap
  | SockMap
  | CPUMap
  | XSKMap
  | SockHash
  | CgroupStorage
  | ReusePortSockArray
  | PerCPUCgroupStorage
  | Queue
  | Stack
  | SKStorage
  | DevMapHash
  | StructOpts
  | RingBuffer
deriving DecidableEq, Repr

/-- Embedding of From of u32 for MapType, src/map_types.rs lines 34-68. -/
def MapType.fromU32 (orig : Nat) : MapType :=
  match orig with
  | 0 => .Unspec
  | 1 => .Hash
  | 2 => .Array
  | 3 => .ProgArray
  | 4 => .PerfEventArray
  | 5 => .PerCPUHash
  | 6 => .PerCPUArray
  | 7 => .StackTrace
  | 8 => .CgroupArray
  | 9 => .LRUHash
  | 10 => .LRUPerCPUHash
  | 11 => .LPMTrie
  | 12 => .ArrayOfMaps
  | 13 => .HashOfMaps
  | 14 => .DevMap
  | 15 => .SockMap
  | 16 => .CPUMap
  | 17 => .XSKMap
  | 18 => .SockHash
  | 19 => .CgroupStorage
  | 20 => .ReusePortSockArray
  | 21 => .PerCPUCgroupStorage
  | 22 => .Queue
  | 23 => .Stack
  | 24 => .SKStorage
  | 25 => .DevMapHash
  | 26 => .StructOpts
  | 27 => .RingBuffer
  | _ => .Unspec

/-- Embedding of the array-kind predicate. The method MapType::is_array
called by src/map_common.rs is not itself present under src/; its body is
embedded from the free function is_array in src/maps.rs lines 488-497, the
historical copy of the same module kept in the repository, which matches
the spec notion of an array-like kind. -/
def MapType.is_array (mt : MapType) : Bool :=
  match mt with
  | .Array | .PerCPUArray | .ArrayOfMaps | .ProgArray | .PerfEventArray => true
  | _ => false

/-- Modelled from the spec: the method MapType::is_per_cpu called by
src/map.rs and src/percpu_map.rs is not present under src/. Section 3 of
the spec derives is_per_cpu as "values are replicated per possible CPU",
which among the enumerated kinds holds for the per-CPU hash, per-CPU array
and per-CPU LRU hash kinds. -/
def MapType.is_per_cpu (mt : MapType) : Bool :=
  match mt with
  | .PerCPUHash | .PerCPUArray | .LRUPerCPUHash => true
  | _ => false

/-- Embedding of XDPError from src/error.rs: the numeric errno captured at
construction time plus the message passed to XDPError::new. The formatted
strerror suffix of the description is not modelled; msg is the err_msg
argument. -/
structure XDPError where
  code : Int
  msg : String
deriving DecidableEq, Repr

/-- Embedding of XDPError::new, src/error.rs lines 22-33: reads the current
errno value (passed explicitly here) and remaps the deprecated code 524
(ENOTSUPP) to 95 (ENOTSUP). -/
def XDPError.new (errnoVal : Int) (errMsg : String) : XDPError :=
  { code := if errnoVal = 524 then 95 else errnoVal, msg := errMsg }

/-- Embedding of check_rc from src/map_common.rs lines 265-271: a negative
return code becomes an error capturing the current errno (passed
explicitly), anything else returns the prepared value. -/
def check_rc {T : Type} (rc : Int) (errnoVal : Int) (ret : T) (errMsg : String) :
    Except XDPError T :=
  if rc < 0 then .error (XDPError.new errnoVal errMsg) else .ok ret

/-- Kernel syscalls the embedded functions can issue; used to record, per
call, which syscalls were actually attempted. -/
inductive Syscall where
  | updateElem
  | lookupElem
  | deleteElem
  | updateBatch
  | lookupBatch (delete : Bool)
  | getNextKey
deriving DecidableEq, Repr

/-- Embedding of MapValue from src/map_common.rs lines 19-25. -/
inductive MapValue (V : Type) where
  | Single (v : V)
  | Multi (vs : List V)
deriving DecidableEq, Repr

/-- Embedding of MapValue::into_vec, src/map_common.rs lines 34-39. -/
def MapValue.into_vec {V : Type} : MapValue V → List V
  | .Multi r => r
  | .Single r => [r]

/-- Embedding of MapValue::into_single, src/map_common.rs lines 52-57.
The Multi branch calls Vec::swap_remove(0), which returns the first
element and panics when the vector is empty; the panic is modelled as
none. -/
def MapValue.into_single {V : Type} : MapValue V → Option V
  | .Multi r => r.head?
  | .Single r => some r

/-- Embedding of BatchResultInternal from src/map_batch.rs lines 25-28. -/
structure BatchResultInternal where
  next_key : Option Nat
  num_items : Nat
deriving DecidableEq, Repr

/-- Embedding of KeyValue from src/map_common.rs lines 12-15. -/
structure KeyValue (K V : Type) where
  key : K
  value : V
deriving DecidableEq, Repr

/-- Embedding of BatchResult from src/map_batch.rs lines 19-23. -/
structure BatchResult (K V : Type) where
  items : List (KeyValue K V)
  next_key : Option Nat
  num_items : Nat
deriving DecidableEq, Repr

/-- Outcome of one bulk lookup or lookup-and-delete syscall, as written
back by the kernel: the raw return code, the errno value left after the
call (errno was reset to 0 right before it), the out_batch cursor word and
the element count written through the count pointer. -/
structure BatchSyscallOut where
  rc : Int
  errno : Int
  nkey : Nat
  count : Nat
deriving DecidableEq, Repr

/-- Embedding of lookup_batch_prealloc from src/map_common.rs lines
315-366: errno is reset, the bulk syscall runs (its effects are the oracle
argument), a negative return code with errno 28 or 2 is rewritten to 0,
the next key is absent exactly when errno is 2, and check_rc decides
between the assembled BatchResultInternal and an error. -/
def lookup_batch_prealloc (out : BatchSyscallOut) :
    Except XDPError BatchResultInternal :=
  let e := out.errno
  let rc := if out.rc < 0 ∧ (e = 28 ∨ e = 2) then 0 else out.rc
  let next_key : Option Nat := if e = 2 then none else some out.nkey
  check_rc rc e { next_key := next_key, num_items := out.count }
    "Error looking up batch of elements"

/-- Embedding of the default MapLike::delete, src/map_common.rs lines
135-146: array kinds short-circuit with errno 22 before any syscall;
otherwise the delete syscall runs (oracle: return code and errno after)
and check_rc decides. The first component lists the syscalls issued. -/
def MapLike.delete (mt : MapType) (del : Int × Int) :
    List Syscall × Except XDPError Unit :=
  if mt.is_array then
    ([], .error (XDPError.new 22 "Delete not supported on this map type"))
  else
    ([Syscall.deleteElem], check_rc del.1 del.2 () "Error deleting elem")

/-- Embedding of the default MapLike::lookup_batch, src/map_common.rs
lines 207-218: without batching support it fails with errno 95 before any
syscall, otherwise it defers to lookup_batch_impl (oracle returning the
syscalls it issues and its result). -/
def MapLike.lookup_batch {R : Type} (batchingSupported : Bool)
    (impl : Nat → Option Nat → Bool → List Syscall × Except XDPError R)
    (batch_size : Nat) (next_key : Option Nat) :
    List Syscall × Except XDPError R :=
  if ¬ batchingSupported then
    ([], .error (XDPError.new 95 "Batching not supported"))
  else
    impl batch_size next_key false

/-- Embedding of the default MapLike::lookup_and_delete_batch,
src/map_common.rs lines 241-258: the batching-support check runs first
(errno 95), then the array-kind check (errno 22), then lookup_batch_impl
with delete set. -/
def MapLike.lookup_and_delete_batch {R : Type} (batchingSupported : Bool)
    (mt : MapType)
    (impl : Nat → Option Nat → Bool → List Syscall × Except XDPError R)
    (batch_size : Nat) (next_key : Option Nat) :
    List Syscall × Except XDPError R :=
  if ¬ batchingSupported then
    ([], .error (XDPError.new 95 "Batching not supported"))
  else if mt.is_array then
    ([], .error (XDPError.new 22 "Delete not supported on this map type"))
  else
    impl batch_size next_key true

/-- Embedding of align from src/percpu_map.rs lines 362-364: round a byte
size up to the next multiple of 8. -/
def align (v : Nat) : Nat := ((v + 7) / 8) * 8

/-- Structural-fuel helper for chunksExact; the fuel starts at the list
length, which bounds the number of chunks. -/
def chunksExactAux {A : Type} (cs : Nat) : Nat → List A → List (List A)
  | 0, _ => []
  | fuel + 1, l =>
    if 0 < cs ∧ cs ≤ l.length then
      l.take cs :: chunksExactAux cs fuel (l.drop cs)
    else []

/-- Embedding of the slice iterator chunks_exact(cs) used by
src/percpu_map.rs: the successive length-cs chunks of the list, the
remainder (shorter than cs) being dropped. -/
def chunksExact {A : Type} (cs : Nat) (l : List A) : List (List A) :=
  chunksExactAux cs l.length l

/-- Embedding of PerCpuMap::lookup, src/percpu_map.rs lines 95-115. The
value buffer has numCpus * valueSize bytes; the syscall writes it in place
(oracle: return code, errno after, buffer contents after). On a
non-negative return code the buffer is cut into valueSize-byte chunks and
each chunk is decoded with V::from_aligned (the dec argument), in buffer
order; check_rc decides the final result. -/
def PerCpuMap.lookup {V : Type} (dec : List Nat → V) (valueSize : Nat)
    (rc : Int) (errnoAfter : Int) (buffer : List Nat) :
    Except XDPError (List V) :=
  let r := if 0 ≤ rc then (chunksExact valueSize buffer).map dec else []
  check_rc rc errnoAfter r "Error looking up elem"

/-- Loop of populate_batch_result: the keys come already reversed; for
each key the next numCpus chunks are taken from the reversed chunk stream
and decoded in the order encountered. -/
def populateLoop {K V : Type} (dec : List Nat → V) (numCpus : Nat) :
    List K → List (List Nat) → List (KeyValue K (List V))
  | [], _ => []
  | k :: ks, cs =>
    { key := k, value := (cs.take numCpus).map dec }
      :: populateLoop dec numCpus ks (cs.drop numCpus)

/-- Embedding of populate_batch_result from src/percpu_map.rs lines
337-360: the value buffer is truncated to n * numCpus * valueSize bytes,
cut into valueSize-byte chunks, and the chunk stream is reversed; the
first n keys are drained and visited in reverse; each key takes the next
numCpus chunks off the reversed stream, decoding them in the order the
reversed iterator yields them. -/
def populate_batch_result {K V : Type} (dec : List Nat → V)
    (numCpus : Nat) (n : Nat) (valueSize : Nat)
    (keys : List K) (vals : List Nat) : List (KeyValue K (List V)) :=
  let vals := vals.take (n * numCpus * valueSize)
  let chunksRev := (chunksExact valueSize vals).reverse
  populateLoop dec numCpus ((keys.take n).reverse) chunksRev

/-- Embedding of PerCpuMap::lookup_batch_impl, src/percpu_map.rs lines
229-268: array kinds reject delete with errno 22 before any syscall, a
missing batching capability fails with errno 95 before any syscall,
otherwise the preallocated-buffer bulk lookup runs (oracle out for the
syscall effects, keysAfter / valsAfter for the buffers the kernel filled)
and the result is assembled with populate_batch_result. -/
def PerCpuMap.lookup_batch_impl {K V : Type} (mt : MapType)
    (batchingSupported : Bool) (numCpus valueSize : Nat)
    (dec : List Nat → V) (out : BatchSyscallOut)
    (keysAfter : List K) (valsAfter : List Nat)
    (batch_size : Nat) (next_key : Option Nat) (delete : Bool) :
    List Syscall × Except XDPError (BatchResult K (List V)) :=
  if mt.is_array ∧ delete then
    ([], .error (XDPError.new 22 "Delete not supported on this map type"))
  else if ¬ batchingSupported then
    ([], .error (XDPError.new 95 "Batching not supported"))
  else
    match lookup_batch_prealloc out with
    | .error e => ([Syscall.lookupBatch delete], .error e)
    | .ok r =>
      ([Syscall.lookupBatch delete],
        .ok { items := populate_batch_result dec numCpus r.num_items valueSize
                keysAfter valsAfter
              next_key := r.next_key
              num_items := r.num_items })

/-- Fallback loop of update_batch: self.update is called on each
(key, value) pair in order, stopping at the first failure, the question
mark operator propagating its error. Returns the pairs on which update was
called, in call order, together with the loop outcome. -/
def runUpdateLoop {K V : Type} (upd : K → V → Except XDPError Unit) :
    List (K × V) → List (K × V) × Except XDPError Unit
  | [] => ([], .ok ())
  | p :: rest =>
    match upd p.1 p.2 with
    | .error e => ([p], .error e)
    | .ok _ =>
      let r := runUpdateLoop upd rest
      (p :: r.1, r.2)

/-- Embedding of the default MapLike::update_batch, src/map_common.rs
lines 151-184: unequal lengths fail with errno 22 before anything else;
when update batching is not supported the single-update loop runs and a
fully successful loop returns the number of keys; otherwise one bulk
update syscall runs (oracle bulk = return code, errno after, count written
back) and check_rc decides. The first component is the list of single
updates issued, in order. -/
def MapLike.update_batch {K V : Type} (updateBatchingNotSupported : Bool)
    (upd : K → V → Except XDPError Unit) (bulk : Int × Int × Nat)
    (keys : List K) (values : List V) :
    List (K × V) × Except XDPError Nat :=
  if keys.length ≠ values.length then
    ([], .error (XDPError.new 22 ("Num keys must match num values. Got "
      ++ toString keys.length ++ " keys, " ++ toString values.length
      ++ " values")))
  else if updateBatchingNotSupported then
    let r := runUpdateLoop upd (keys.zip values)
    (r.1, r.2.map fun _ => keys.length)
  else
    ([], check_rc bulk.1 bulk.2.1 bulk.2.2 "Error updating batch of elements")

/-- Embedding of PerCpuMap::update_batch, src/percpu_map.rs lines 121-169:
unequal lengths fail with errno 22; for array kinds or without batching
support the single-update loop runs (upd models PerCpuMap::update, which
replicates the encoded value per CPU before its one syscall); otherwise a
flat buffer replicating each encoded value once per possible CPU is built
and one bulk update syscall runs on it (oracle bulk, a function of that
buffer). -/
def PerCpuMap.update_batch {K V : Type} (mt : MapType)
    (batchingSupported : Bool) (numCpus : Nat) (enc : V → List Nat)
    (upd : K → V → Except XDPError Unit)
    (bulk : List Nat → Int × Int × Nat)
    (keys : List K) (values : List V) :
    List (K × V) × Except XDPError Nat :=
  if keys.length ≠ values.length then
    ([], .error (XDPError.new 22 ("Num keys must match num values. Got "
      ++ toString keys.length ++ " keys, " ++ toString values.length
      ++ " values")))
  else if mt.is_array ∨ ¬ batchingSupported then
    let r := runUpdateLoop upd (keys.zip values)
    (r.1, r.2.map fun _ => keys.length)
  else
    let per_cpu_values :=
      values.foldl (fun acc v => acc ++ (List.replicate numCpus (enc v)).flatten) []
    let b := bulk per_cpu_values
    ([], check_rc b.1 b.2.1 b.2.2 "Error updating batch of elements")

/-- Little-endian serialization: the n least-significant bytes of x, least
significant first (the bit pattern written by to_le_bytes on an n-byte
carrier whose two-complement pattern is x). -/
def leBytes : Nat → Nat → List Nat
  | 0, _ => []
  | n + 1, x => (x % 256) :: leBytes n (x / 256)

/-- Little-endian deserialization, the inverse of leBytes (the value read
by from_le_bytes). -/
def leVal : List Nat → Nat
  | [] => 0
  | b :: bs => b + 256 * leVal bs

/-- Embedding of ByteAligned::align for the unsigned integer types,
src/percpu_map.rs lines 372-384 with the instances of lines 388-393: the
value is cast up to the carrier (u64 for the 1/2/4/8-byte types and usize,
u128 for u128), which preserves the value, and the carrier is serialized
little-endian. carrierBytes is 8 or 16 accordingly. -/
def alignUnsigned (carrierBytes : Nat) (v : Nat) : List Nat :=
  leBytes carrierBytes v

/-- Embedding of ByteAligned::from_aligned for the unsigned integer types:
the chunk is read as the carrier little-endian and cast back down to the
s-byte value type, which truncates modulo 2 ^ (8 * s). -/
def from_alignedUnsigned (s : Nat) (chunk : List Nat) : Nat :=
  leVal chunk % 2 ^ (8 * s)

/-- Interpret an unsigned w-bit pattern as a two-complement signed
value. -/
def toSigned (w : Nat) (n : Nat) : Int :=
  if n < 2 ^ (w - 1) then (n : Int) else (n : Int) - 2 ^ w

/-- Embedding of ByteAligned::align for the signed integer types,
src/percpu_map.rs lines 372-384 with the instances of lines 394-399: the
value is cast up to the carrier (i64 / i128), which sign-extends and
preserves the value, and the two-complement pattern of the carrier is
serialized little-endian. -/
def alignSigned (carrierBytes : Nat) (v : Int) : List Nat :=
  leBytes carrierBytes (v % 2 ^ (8 * carrierBytes)).toNat

/-- Embedding of ByteAligned::from_aligned for the signed integer types:
the chunk is read as the carrier little-endian and cast back down to the
s-byte signed type, truncating to 8 * s bits reinterpreted as
two-complement. -/
def from_alignedSigned (s : Nat) (chunk : List Nat) : Int :=
  toSigned (8 * s) (leVal chunk % 2 ^ (8 * s))

/-- Embedding of check_batching_supported, src/map_batch.rs lines 30-51.
envVar is the value of the rxdp_batching_supported environment variable
when set; liveProbe is the outcome of the live self-test (create a
throwaway hash map, update one element, run a one-element batch lookup:
true when every step succeeds). Returns the reported capability together
with whether the live self-test ran. -/
def check_batching_supported (envVar : Option String) (liveProbe : Bool) :
    Bool × Bool :=
  match envVar with
  | some v => if v = "0" then (false, false) else (true, false)
  | none => (liveProbe, true)

/-- Kernel map definition as read by validate_map through bpf_map__def:
key size, value size, numeric kind code and max entries. -/
structure MapDef where
  key_size : Nat
  value_size : Nat
  type_ : Nat
  max_entries : Nat
deriving DecidableEq, Repr

/-- Embedding of validate_map, src/map_common.rs lines 368-405. findOk
models the named map being found (fd at least 0, non-null pointers);
errnoVal is the ambient errno captured when an error is built; reqKeySize
is the size of K. Only the key size is compared here; the value size is
returned to the caller unchecked. The map fd is omitted from the
model. -/
def validate_map (findOk : Bool) (errnoVal : Int) (d : MapDef)
    (reqKeySize : Nat) : Except XDPError (Nat × Nat × Nat) :=
  if ¬ findOk then
    .error (XDPError.new errnoVal "Unable to find map with name")
  else if reqKeySize ≠ d.key_size then
    .error (XDPError.new errnoVal ("Incorrect key size, XDP map has size: "
      ++ toString d.key_size ++ ", requested key size is "
      ++ toString reqKeySize ++ "."))
  else
    .ok (d.value_size, d.type_, d.max_entries)

/-- Embedding of Map::new, src/map.rs lines 63-88: validate_map checks the
key size, per-cpu kinds are rejected with errno 22, then the size of V is
compared against the kernel value size; on success the handle carries the
map type and max entries (the fd is omitted). -/
def Map.new (findOk : Bool) (errnoVal : Int) (d : MapDef)
    (reqKeySize reqValSize : Nat) : Except XDPError (MapType × Nat) := do
  let (vsize, mtype, max_entries) ← validate_map findOk errnoVal d reqKeySize
  let map_type := MapType.fromU32 mtype
  if map_type.is_per_cpu then
    .error (XDPError.new 22 "Improper map type, use rxdp::PerCPUMap::new")
  else if reqValSize ≠ vsize then
    .error (XDPError.new errnoVal ("Incorrect value size, XDP map has size: "
      ++ toString vsize ++ ", requested value size is "
      ++ toString reqValSize ++ "."))
  else
    .ok (map_type, max_entries)

/-- Embedding of PerCpuMap::new, src/percpu_map.rs lines 60-77:
validate_map checks the key size and its returned value size is discarded
(bound to an underscore in the source); non-per-cpu kinds are rejected
with errno 22; the requested value size is never compared, only rounded up
by align to become the internal aligned value size carried by the
handle. -/
def PerCpuMap.new (findOk : Bool) (errnoVal : Int) (d : MapDef)
    (reqKeySize reqValSize : Nat) :
    Except XDPError (MapType × Nat × Nat) := do
  let (_, mtype, max_entries) ← validate_map findOk errnoVal d reqKeySize
  let map_type := MapType.fromU32 mtype
  if ¬ map_type.is_per_cpu then
    .error (XDPError.new 22 "Improper map type, use rxdp::Map::new")
  else
    .ok (map_type, max_entries, align reqValSize)

/-- Embedding of the linear walk of Map::_items, src/map.rs lines 251-286.
The kernel get-next-key chain is abstracted as the list of successive keys
the enumeration yields until get_next_key fails; lk is the lookup oracle.
A failing lookup on a key is skipped and the walk continues when the map
kind is DevMap; otherwise the question mark operator aborts the walk with
that error. -/
def Map.itemsLinear {K V : Type} (mt : MapType)
    (lk : K → Except XDPError V) :
    List K → Except XDPError (List (KeyValue K V))
  | [] => .ok []
  | k :: rest =>
    match lk k with
    | .error e =>
      if mt = MapType.DevMap then Map.itemsLinear mt lk rest
      else .error e
    | .ok v => do
      let r ← Map.itemsLinear mt lk rest
      return { key := k, value := v } :: r

/-- Concrete single-update oracle used by witnesses: updating key 1 fails,
every other key succeeds. -/
def updSample : Nat → Nat → Except XDPError Unit := fun k _ =>
  if k = 1 then .error (XDPError.new 1 "boom") else .ok ()

/-- Concrete lookup oracle used by witnesses: key 1 is absent, every other
key holds ten times itself. -/
def lkSample : Nat → Except XDPError Nat := fun k =>
  if k = 1 then .error (XDPError.new 2 "Error looking up elem")
  else .ok (10 * k)

end Rxdp

namespace Rxdp

/-- The fallback loop succeeds on every pair when each single update
succeeds, and its trace is the whole pair list in order. -/
theorem runUpdateLoop_all_ok {K V : Type}
    (upd : K → V → Except XDPError Unit) (ps : List (K × V))
    (h : ∀ p ∈ ps, upd p.1 p.2 = .ok ()) :
    runUpdateLoop upd ps = (ps, .ok ()) := by
  induction ps with
  | nil => rfl
  | cons p rest ih =>
    have hp := h p (by simp)
    simp [runUpdateLoop, hp, ih fun q hq => h q (by simp [hq])]

/-- The fallback loop stops at the first failing pair, its trace being the
successful prefix followed by the failing pair, and propagates that
error. -/
theorem runUpdateLoop_first_err {K V : Type}
    (upd : K → V → Except XDPError Unit) (pre : List (K × V)) (p : K × V)
    (rest : List (K × V)) (e : XDPError)
    (hpre : ∀ q ∈ pre, upd q.1 q.2 = .ok ())
    (hp : upd p.1 p.2 = .error e) :
    runUpdateLoop upd (pre ++ p :: rest) = (pre ++ [p], .error e) := by
  induction pre with
  | nil => simp [runUpdateLoop, hp]
  | cons q qre ih =>
    have hq := hpre q (by simp)
    simp [runUpdateLoop, hq, ih fun x hx => hpre x (by simp [hx])]

/-- C1: for equal-length key and value vectors, when update batching is
not supported (the MapLike default with its fallback predicate true; the
PerCpuMap variant when the kind is array-like or batching is unsupported),
update_batch runs one single-element update per index in increasing index
order: if every update succeeds the trace is all (key, value) pairs in
order and the call returns Ok with the number of keys; otherwise the trace
stops at the first failing pair and that error is propagated. -/
theorem C1_update_batch_fallback {K V : Type}
    (upd : K → V → Except XDPError Unit) (bulk : Int × Int × Nat)
    (mt : MapType) (batchingSupported : Bool) (numCpus : Nat)
    (enc : V → List Nat) (bulkP : List Nat → Int × Int × Nat)
    (keys : List K) (values : List V)
    (hlen : keys.length = values.length)
    (hfb : mt.is_array = true ∨ batchingSupported = false) :
    ((∀ p ∈ keys.zip values, upd p.1 p.2 = .ok ()) →
      MapLike.update_batch true upd bulk keys values =
        (keys.zip values, .ok keys.length) ∧
      PerCpuMap.update_batch mt batchingSupported numCpus enc upd bulkP
          keys values =
        (keys.zip values, .ok keys.length)) ∧
    (∀ pre p rest e, keys.zip values = pre ++ p :: rest →
      (∀ q ∈ pre, upd q.1 q.2 = .ok ()) → upd p.1 p.2 = .error e →
      MapLike.update_batch true upd bulk keys values =
        (pre ++ [p], .error e) ∧
      PerCpuMap.update_batch mt batchingSupported numCpus enc upd bulkP
          keys values =
        (pre ++ [p], .error e)) := by
  have key : ∀ (tr : List (K × V)) (res : Except XDPError Unit),
      runUpdateLoop upd (keys.zip values) = (tr, res) →
      MapLike.update_batch true upd bulk keys values =
        (tr, res.map fun _ => keys.length) ∧
      PerCpuMap.update_batch mt batchingSupported numCpus enc upd bulkP
          keys values =
        (tr, res.map fun _ => keys.length) := by
    intro tr res hr
    rcases hfb with hf | hf <;>
      exact ⟨by simp [MapLike.update_batch, hlen, hr],
        by simp [PerCpuMap.update_batch, hlen, hf, hr]⟩
  constructor
  · intro hok
    have h := key _ _ (runUpdateLoop_all_ok upd _ hok)
    simpa [Except.map] using h
  · intro pre p rest e hsplit hpre hp
    have hloop : runUpdateLoop upd (keys.zip values) = (pre ++ [p], .error e) := by
      rw [hsplit]; exact runUpdateLoop_first_err upd pre p rest e hpre hp
    have h := key _ _ hloop
    simpa [Except.map] using h

/-- C1 witness: with a single-update oracle failing on key 1, the MapLike
fallback over keys 0, 1, 2 updates pairs (0, 10) then (1, 11) and stops
with the error; with every update succeeding, the PerCpuMap fallback on a
per-cpu array kind applies both updates in order and returns the key
count. -/
theorem C1_update_batch_fallback_witness :
    MapLike.update_batch true updSample (0, 0, 0) [0, 1, 2] [10, 11, 12] =
      ([(0, 10), (1, 11)], .error (XDPError.new 1 "boom")) ∧
    PerCpuMap.update_batch MapType.PerCPUArray true 2
        (fun v => alignUnsigned 8 v) updSample (fun _ => (0, 0, 0))
        [0, 2] [10, 12] =
      ([(0, 10), (2, 12)], .ok 2) := by
  constructor
  · exact ((C1_update_batch_fallback updSample (0, 0, 0) MapType.Hash false 2
      (fun v => alignUnsigned 8 v) (fun _ => (0, 0, 0)) [0, 1, 2]
      [10, 11, 12] rfl (Or.inr rfl)).2 [(0, 10)] (1, 11) [(2, 12)]
      (XDPError.new 1 "boom") rfl (by simp [updSample])
      (by simp [updSample])).1
  · exact ((C1_update_batch_fallback updSample (0, 0, 0) MapType.PerCPUArray
      true 2 (fun v => alignUnsigned 8 v) (fun _ => (0, 0, 0)) [0, 2]
      [10, 12] rfl (Or.inl rfl)).1 (by simp [updSample])).2

/-- C2 counterexample: for the array kind with batching unsupported,
delete fails with the delete-not-supported condition (errno 22) but
lookup_and_delete_batch fails with the distinct batching-not-supported
condition (errno 95), so the two calls do not fail with the same
condition. -/
theorem C2_counterexample :
    (MapLike.delete MapType.Array (0, 0)).2 =
      .error (XDPError.new 22 "Delete not supported on this map type") ∧
    (MapLike.lookup_and_delete_batch (R := Unit) false MapType.Array
        (fun _ _ _ => ([], .ok ())) 10 none).2 =
      .error (XDPError.new 95 "Batching not supported") ∧
    XDPError.new 95 "Batching not supported" ≠
      XDPError.new 22 "Delete not supported on this map type" := by
  refine ⟨rfl, rfl, ?_⟩
  decide

/-- C2 amended: for every array-like map kind, delete fails with the
delete-not-supported condition (errno 22) and issues no syscall, for every
key; lookup_and_delete_batch likewise issues no syscall for every
batch_size and cursor, and fails with the delete-not-supported condition
when batching is supported but with the batching-not-supported condition
(errno 95) when it is not. -/
theorem C2_array_delete_rejected (mt : MapType) (h : mt.is_array = true)
    (del : Int × Int) {R : Type}
    (impl : Nat → Option Nat → Bool → List Syscall × Except XDPError R)
    (batch_size : Nat) (next_key : Option Nat) (batching : Bool) :
    MapLike.delete mt del =
      ([], .error (XDPError.new 22 "Delete not supported on this map type")) ∧
    MapLike.lookup_and_delete_batch batching mt impl batch_size next_key =
      ([], .error (if batching then
          XDPError.new 22 "Delete not supported on this map type"
        else XDPError.new 95 "Batching not supported")) := by
  cases batching <;>
    simp [MapLike.delete, MapLike.lookup_and_delete_batch, h]

/-- C2 witness: the amended theorem applied to the Array kind. -/
theorem C2_array_delete_rejected_witness :
    MapLike.delete MapType.Array (0, 0) =
      ([], .error (XDPError.new 22 "Delete not supported on this map type")) ∧
    MapLike.lookup_and_delete_batch (R := Unit) true MapType.Array
        (fun _ _ _ => ([], .ok ())) 10 none =
      ([], .error (XDPError.new 22 "Delete not supported on this map type")) := by
  have h := C2_array_delete_rejected MapType.Array (by decide) (0, 0)
    (R := Unit) (fun _ _ _ => ([], .ok ())) 10 none true
  exact ⟨h.1, by simpa using h.2⟩

/-- C3: with batching reported unsupported, lookup_batch and
lookup_and_delete_batch on Map (the MapLike defaults) fail at once with
the batching-not-supported error, and PerCpuMap::lookup_batch_impl fails
at once with the batching-not-supported error (or, for the array kind with
delete set, the delete-not-supported error, likewise a not-supported
condition) — in every case with an empty syscall trace, so nothing is
emulated and no partial result is produced, for every batch_size and
cursor. -/
theorem C3_no_batching_fails_immediately {R K V : Type}
    (impl : Nat → Option Nat → Bool → List Syscall × Except XDPError R)
    (mt : MapType) (batch_size : Nat) (next_key : Option Nat)
    (numCpus valueSize : Nat) (dec : List Nat → V)
    (out : BatchSyscallOut) (keysAfter : List K) (valsAfter : List Nat)
    (delete : Bool) :
    MapLike.lookup_batch false impl batch_size next_key =
      ([], .error (XDPError.new 95 "Batching not supported")) ∧
    MapLike.lookup_and_delete_batch false mt impl batch_size next_key =
      ([], .error (XDPError.new 95 "Batching not supported")) ∧
    PerCpuMap.lookup_batch_impl mt false numCpus valueSize dec out keysAfter
        valsAfter batch_size next_key delete =
      ([], .error (if mt.is_array ∧ delete then
          XDPError.new 22 "Delete not supported on this map type"
        else XDPError.new 95 "Batching not supported")) := by
  refine ⟨by simp [MapLike.lookup_batch],
    by simp [MapLike.lookup_and_delete_batch], ?_⟩
  by_cases h : mt.is_array ∧ delete = true <;>
    simp [PerCpuMap.lookup_batch_impl, h]

/-- C4: in lookup_batch_prealloc, a negative syscall return code with
errno 28 or errno 2 (the two recognised end-of-iteration codes) yields Ok
instead of an error; whenever the call yields Ok, the returned cursor is
absent exactly when errno is 2 (the no-more-entries code); and a negative
return code with any other errno propagates as an error. -/
theorem C4_end_of_iteration_codes (out : BatchSyscallOut) :
    (out.rc < 0 → (out.errno = 28 ∨ out.errno = 2) →
      lookup_batch_prealloc out =
        .ok { next_key := if out.errno = 2 then none else some out.nkey,
              num_items := out.count }) ∧
    (∀ r, lookup_batch_prealloc out = .ok r →
      (r.next_key = none ↔ out.errno = 2)) ∧
    (out.rc < 0 → ¬ (out.errno = 28 ∨ out.errno = 2) →
      lookup_batch_prealloc out =
        .error (XDPError.new out.errno "Error looking up batch of elements")) := by
  refine ⟨?_, ?_, ?_⟩
  · intro hrc he
    simp [lookup_batch_prealloc, check_rc, hrc, he]
  · intro r h
    simp only [lookup_batch_prealloc, check_rc] at h
    by_cases he : out.errno = 2 <;>
      simp [he] at h <;>
      (repeat' split at h) <;>
      (try simp only [Except.ok.injEq] at h) <;>
      first
        | (subst h; simp [he])
        | simp at h
  · intro hrc hne
    simp [lookup_batch_prealloc, check_rc, hrc, hne]

/-- C4 witness: a negative return code with errno 2 yields Ok with an
absent cursor, and a negative return code with errno 7 propagates as an
error. -/
theorem C4_end_of_iteration_codes_witness :
    lookup_batch_prealloc { rc := -1, errno := 2, nkey := 5, count := 0 } =
      .ok { next_key := none, num_items := 0 } ∧
    lookup_batch_prealloc { rc := -1, errno := 7, nkey := 5, count := 3 } =
      .error (XDPError.new 7 "Error looking up batch of elements") := by
  constructor
  · have h := (C4_end_of_iteration_codes
      { rc := -1, errno := 2, nkey := 5, count := 0 }).1 (by decide) (by decide)
    simpa using h
  · exact (C4_end_of_iteration_codes
      { rc := -1, errno := 7, nkey := 5, count := 3 }).2.2 (by decide) (by decide)

theorem pow256 (n : Nat) : (256 : Nat) ^ n = 2 ^ (8 * n) := by
  rw [pow_mul]
  norm_num

theorem leBytes_length (n x : Nat) : (leBytes n x).length = n := by
  induction n generalizing x with
  | zero => rfl
  | succ n ih => simp [leBytes, ih]

theorem leVal_leBytes (n x : Nat) : leVal (leBytes n x) = x % 256 ^ n := by
  induction n generalizing x with
  | zero => simp [leBytes, leVal, Nat.mod_one]
  | succ n ih =>
    simp only [leBytes, leVal, ih]
    rw [pow_succ, Nat.mul_comm (256 ^ n) 256, Nat.mod_mul]

theorem leBytes_zero_val (n : Nat) : leBytes n 0 = List.replicate n 0 := by
  induction n with
  | zero => rfl
  | succ n ih => simp [leBytes, ih, List.replicate_succ]

theorem leBytes_drop (s : Nat) : ∀ c x : Nat, s ≤ c →
    (leBytes c x).drop s = leBytes (c - s) (x / 256 ^ s) := by
  induction s with
  | zero => intro c x _; simp
  | succ s ih =>
    intro c x h
    cases c with
    | zero => omega
    | succ c =>
      simp only [leBytes, List.drop_succ_cons, Nat.succ_sub_succ]
      rw [ih c (x / 256) (by omega), Nat.div_div_eq_div_mul]
      congr 2
      rw [pow_succ]
      ring

/-- Unsigned codec round trip: decoding an encoded s-byte value on a
c-byte carrier recovers the value. -/
theorem unsigned_round_trip (s c v : Nat) (hsc : s ≤ c)
    (hv : v < 2 ^ (8 * s)) :
    from_alignedUnsigned s (alignUnsigned c v) = v := by
  unfold from_alignedUnsigned alignUnsigned
  rw [leVal_leBytes]
  have h2 : v < 256 ^ c := by
    rw [pow256]
    exact lt_of_lt_of_le hv (Nat.pow_le_pow_right (by norm_num) (by omega))
  rw [Nat.mod_eq_of_lt h2, Nat.mod_eq_of_lt hv]

/-- The bytes beyond the value size are zero in an unsigned encoding. -/
theorem align_padding (s c v : Nat) (hsc : s ≤ c) (hv : v < 2 ^ (8 * s)) :
    (alignUnsigned c v).drop s = List.replicate (c - s) 0 := by
  unfold alignUnsigned
  rw [leBytes_drop s c v hsc]
  have h0 : v / 256 ^ s = 0 := Nat.div_eq_of_lt (by rw [pow256]; exact hv)
  rw [h0, leBytes_zero_val]

/-- A non-negative signed value encodes exactly like the unsigned value of
the same magnitude. -/
theorem alignSigned_nonneg (c : Nat) (v : Int) (h0 : 0 ≤ v)
    (hlt : v < 2 ^ (8 * c)) :
    alignSigned c v = alignUnsigned c v.toNat := by
  unfold alignSigned alignUnsigned
  rw [Int.emod_eq_of_lt h0 hlt]

/-- Signed codec round trip: decoding an encoded s-byte two-complement
value on a c-byte carrier recovers the value. -/
theorem signed_round_trip (s c : Nat) (v : Int) (hs : 0 < s) (hsc : s ≤ c)
    (hlo : -(2 ^ (8 * s - 1)) ≤ v) (hhi : v < 2 ^ (8 * s - 1)) :
    from_alignedSigned s (alignSigned c v) = v := by
  have hMc : (0 : Int) < 2 ^ (8 * c) := by positivity
  have hMs : (0 : Int) < 2 ^ (8 * s) := by positivity
  have hP : (2 : Int) ^ (8 * s - 1) * 2 = 2 ^ (8 * s) := by
    rw [← pow_succ]
    congr 1
    omega
  have hdvd : ((2 : Int) ^ (8 * s)) ∣ 2 ^ (8 * c) :=
    pow_dvd_pow 2 (by omega)
  have hm0 : 0 ≤ v % 2 ^ (8 * c) := Int.emod_nonneg v (by positivity)
  have hmlt : v % 2 ^ (8 * c) < 2 ^ (8 * c) := Int.emod_lt_of_pos v hMc
  have hmc : (((v % 2 ^ (8 * c)).toNat : Nat) : Int) = v % 2 ^ (8 * c) :=
    Int.toNat_of_nonneg hm0
  have hmsmall : (v % 2 ^ (8 * c)).toNat < 256 ^ c := by
    rw [pow256]
    have h2 : (((v % 2 ^ (8 * c)).toNat : Nat) : Int) < 2 ^ (8 * c) := by
      rw [hmc]
      exact hmlt
    have h3 : (((2 : Nat) ^ (8 * c) : Nat) : Int) = (2 : Int) ^ (8 * c) := by
      push_cast
      ring
    rw [← h3] at h2
    exact_mod_cast h2
  unfold from_alignedSigned alignSigned
  rw [leVal_leBytes, Nat.mod_eq_of_lt hmsmall]
  have hn : ((((v % 2 ^ (8 * c)).toNat % 2 ^ (8 * s) : Nat)) : Int) =
      v % 2 ^ (8 * s) := by
    push_cast
    rw [hmc, Int.emod_emod_of_dvd v hdvd]
  have hcast : ((2 ^ (8 * s - 1) : Nat) : Int) = 2 ^ (8 * s - 1) := by
    push_cast
    ring
  have hcase : v % 2 ^ (8 * s) = v ∨ v % 2 ^ (8 * s) = v + 2 ^ (8 * s) := by
    rcases le_or_lt 0 v with hv | hv
    · left
      exact Int.emod_eq_of_lt hv (by omega)
    · right
      have h1 : (v + 2 ^ (8 * s)) % 2 ^ (8 * s) = v % 2 ^ (8 * s) := by
        have h2 := Int.add_mul_emod_self_left (a := v) (b := 2 ^ (8 * s))
          (c := 1)
        simp only [mul_one] at h2
        exact h2
      rw [← h1]
      exact Int.emod_eq_of_lt (by omega) (by omega)
  unfold toSigned
  generalize hng : (v % 2 ^ (8 * c)).toNat % 2 ^ (8 * s) = n0 at hn ⊢
  by_cases hlt : n0 < 2 ^ (8 * s - 1)
  · rw [if_pos hlt]
    have hlt2 : (n0 : Int) < 2 ^ (8 * s - 1) := by
      rw [← hcast]
      exact_mod_cast hlt
    rcases hcase with hc | hc <;> rw [hc] at hn <;> omega
  · rw [if_neg hlt]
    have hlt2 : 2 ^ (8 * s - 1) ≤ (n0 : Int) := by
      rw [← hcast]
      exact_mod_cast Nat.le_of_not_lt hlt
    rcases hcase with hc | hc <;> rw [hc] at hn <;> omega

/-- C5 counterexample: the encoding of the 1-byte signed value -1 on the
8-byte carrier is eight 255 bytes, so the bytes beyond the value size are
not zero although -1 is a representable value that round-trips; the
claimed zero-padding fails for negative signed values. -/
theorem C5_counterexample :
    (alignSigned 8 (-1)).drop 1 ≠ List.replicate 7 0 ∧
    alignSigned 8 (-1) = List.replicate 8 255 ∧
    from_alignedSigned 1 (alignSigned 8 (-1)) = -1 := by
  refine ⟨by decide, by decide, by decide⟩

/-- C5 amended: for every supported integer type of s bytes over its
c-byte carrier (c = 8 for the 1/2/4/8-byte types, c = 16 for the 16-byte
types, so the encoded length is 8 or 16), decoding the encoding returns
the value, and the encoding is the little-endian serialization of the
value cast to the carrier: zero-padded beyond the value size for unsigned
and non-negative signed values, sign-extended (not zero-padded) for
negative values. -/
theorem C5_codec_round_trip :
    (∀ s c v : Nat, 0 < s → s ≤ c → v < 2 ^ (8 * s) →
      from_alignedUnsigned s (alignUnsigned c v) = v ∧
      (alignUnsigned c v).length = c ∧
      (alignUnsigned c v).drop s = List.replicate (c - s) 0) ∧
    (∀ (s c : Nat) (v : Int), 0 < s → s ≤ c → -(2 ^ (8 * s - 1)) ≤ v →
      v < 2 ^ (8 * s - 1) →
      from_alignedSigned s (alignSigned c v) = v ∧
      (alignSigned c v).length = c ∧
      (0 ≤ v → (alignSigned c v).drop s = List.replicate (c - s) 0)) := by
  constructor
  · intro s c v _ hsc hv
    exact ⟨unsigned_round_trip s c v hsc hv, leBytes_length c v,
      align_padding s c v hsc hv⟩
  · intro s c v hs hsc hlo hhi
    refine ⟨signed_round_trip s c v hs hsc hlo hhi, leBytes_length c _, ?_⟩
    intro h0
    have hcs : ((2 : Int) ^ (8 * s - 1)) ≤ 2 ^ (8 * c) :=
      pow_le_pow_right₀ (by norm_num) (by omega)
    have hlt : v < 2 ^ (8 * c) := lt_of_lt_of_le hhi hcs
    rw [alignSigned_nonneg c v h0 hlt]
    apply align_padding s c v.toNat hsc
    have hcast : ((2 ^ (8 * s - 1) : Nat) : Int) = 2 ^ (8 * s - 1) := by
      push_cast
      ring
    have hvs : v.toNat < 2 ^ (8 * s - 1) := by omega
    calc v.toNat < 2 ^ (8 * s - 1) := hvs
      _ ≤ 2 ^ (8 * s) := Nat.pow_le_pow_right (by norm_num) (by omega)

/-- C5 witness: the 1-byte unsigned value 100 on the 8-byte carrier
round-trips, has length 8 and zero padding; the 2-byte signed value -300
round-trips on the 8-byte carrier; the 16-byte carrier gives length 16. -/
theorem C5_codec_round_trip_witness :
    from_alignedUnsigned 1 (alignUnsigned 8 100) = 100 ∧
    (alignUnsigned 8 100).length = 8 ∧
    (alignUnsigned 8 100).drop 1 = List.replicate 7 0 ∧
    from_alignedSigned 2 (alignSigned 8 (-300)) = -300 ∧
    (alignSigned 16 (-300)).length = 16 := by
  obtain ⟨hu, hv⟩ := C5_codec_round_trip
  obtain ⟨h1, h2, h3⟩ := hu 1 8 100 (by norm_num) (by norm_num) (by norm_num)
  obtain ⟨h4, _, _⟩ := hv 2 8 (-300) (by norm_num) (by norm_num)
    (by norm_num) (by norm_num)
  obtain ⟨_, h5, _⟩ := hv 2 16 (-300) (by norm_num) (by norm_num)
    (by norm_num) (by norm_num)
  exact ⟨h1, h2, h3, h4, h5⟩

/-- C6: evaluation at a concrete two-CPU flat buffer holding the encoded
value 1 in the CPU 0 chunk and 2 in the CPU 1 chunk: the single-lookup
path decodes the buffer in per-CPU order, Ok [1, 2], but
populate_batch_result pairs the same buffer with its key as [2, 1],
listing the per-CPU copies in reverse chunk order — the batch path
contradicts the claimed order preservation while the lookup path obeys
it. -/
theorem C6_per_cpu_chunk_order :
    PerCpuMap.lookup (from_alignedUnsigned 4) 8 0 0
        (alignUnsigned 8 1 ++ alignUnsigned 8 2) = .ok [1, 2] ∧
    populate_batch_result (from_alignedUnsigned 4) 2 1 8 [(0 : Nat)]
        (alignUnsigned 8 1 ++ alignUnsigned 8 2) =
      [{ key := 0, value := [2, 1] }] := by
  exact ⟨rfl, rfl⟩

/-- C7 counterexample: with the environment variable set to "x" (a value
other than the literal "0") and a live probe that would report
unsupported, the probe reports supported and does not run the live
self-test, contradicting the claim that any other value falls through to
live detection. -/
theorem C7_counterexample :
    check_batching_supported (some "x") false = (true, false) ∧
    check_batching_supported (some "x") false ≠ (false, true) := by
  exact ⟨rfl, by decide⟩

/-- C7 amended: the literal value "0" forces unsupported without the live
self-test; any other set value forces supported, also without the live
self-test; only an absent variable falls through to live detection, whose
outcome is then reported. -/
theorem C7_env_cache (liveProbe : Bool) :
    check_batching_supported (some "0") liveProbe = (false, false) ∧
    (∀ v : String, v ≠ "0" →
      check_batching_supported (some v) liveProbe = (true, false)) ∧
    check_batching_supported none liveProbe = (liveProbe, true) := by
  refine ⟨rfl, ?_, rfl⟩
  intro v hv
  simp [check_batching_supported, hv]

/-- C7 witness: the amended theorem applied to the set value "1". -/
theorem C7_env_cache_witness :
    check_batching_supported (some "1") true = (true, false) :=
  (C7_env_cache true).2.1 "1" (by decide)

/-- C8 counterexample: PerCpuMap::new succeeds on a per-cpu hash map whose
kernel value size is 4 although the requested value type has size 8, so
construction does not compare the value size. -/
theorem C8_counterexample :
    PerCpuMap.new true 0
        { key_size := 4, value_size := 4, type_ := 5, max_entries := 10 }
        4 8 = .ok (MapType.PerCPUHash, 10, 8) ∧
    (8 : Nat) ≠ 4 := by
  exact ⟨rfl, by decide⟩

/-- C8 amended: construction-time size validation compares the requested
key size for both constructors, failing with an error reporting the
kernel and requested sizes before any map operation; Map::new additionally
compares the requested value size the same way; PerCpuMap::new never
compares the value size and succeeds regardless of it (only rounding it up
for its internal aligned value size). -/
theorem C8_size_validation :
    (∀ (e : Int) (d : MapDef) (rk : Nat), rk ≠ d.key_size →
      validate_map true e d rk = .error (XDPError.new e
        ("Incorrect key size, XDP map has size: " ++ toString d.key_size
          ++ ", requested key size is " ++ toString rk ++ "."))) ∧
    (∀ (e : Int) (d : MapDef) (rk rv : Nat), rk = d.key_size →
      (MapType.fromU32 d.type_).is_per_cpu = false → rv ≠ d.value_size →
      Map.new true e d rk rv = .error (XDPError.new e
        ("Incorrect value size, XDP map has size: " ++ toString d.value_size
          ++ ", requested value size is " ++ toString rv ++ "."))) ∧
    (∀ (e : Int) (d : MapDef) (rk rv : Nat), rk = d.key_size →
      (MapType.fromU32 d.type_).is_per_cpu = true →
      PerCpuMap.new true e d rk rv =
        .ok (MapType.fromU32 d.type_, d.max_entries, align rv)) := by
  refine ⟨?_, ?_, ?_⟩
  · intro e d rk h
    simp [validate_map, h]
  · intro e d rk rv hk hpc hv
    simp [Map.new, validate_map, hk, hpc, hv, Bind.bind, Except.bind]
  · intro e d rk rv hk hpc
    simp [PerCpuMap.new, validate_map, hk, hpc, Bind.bind, Except.bind]

/-- C8 witness: the amended theorem applied to concrete descriptors: a key
size mismatch fails, a Map value size mismatch fails, and PerCpuMap
construction succeeds with mismatched value sizes. -/
theorem C8_size_validation_witness :
    validate_map true 0
        { key_size := 4, value_size := 4, type_ := 1, max_entries := 10 }
        8 = .error (XDPError.new 0
          ("Incorrect key size, XDP map has size: " ++ toString (4 : Nat)
            ++ ", requested key size is " ++ toString (8 : Nat) ++ ".")) ∧
    Map.new true 0
        { key_size := 4, value_size := 4, type_ := 1, max_entries := 10 }
        4 8 = .error (XDPError.new 0
          ("Incorrect value size, XDP map has size: " ++ toString (4 : Nat)
            ++ ", requested value size is " ++ toString (8 : Nat) ++ ".")) ∧
    PerCpuMap.new true 0
        { key_size := 4, value_size := 4, type_ := 5, max_entries := 10 }
        4 4 = .ok (MapType.PerCPUHash, 10, 8) := by
  obtain ⟨h1, h2, h3⟩ := C8_size_validation
  exact ⟨h1 0 _ 8 (by decide), h2 0 _ 4 8 rfl (by decide) (by decide),
    h3 0 _ 4 4 rfl (by decide)⟩

/-- C9: during the linear items walk, for the DevMap kind every key whose
lookup fails is skipped and the walk yields exactly the key-value pairs of
the successful lookups in order, never surfacing an error; for every other
map kind the walk aborts with the error of the first enumerated key whose
lookup fails. -/
theorem C9_devmap_skip {K V : Type} (lk : K → Except XDPError V)
    (chain : List K) (mt : MapType) :
    (Map.itemsLinear MapType.DevMap lk chain =
      .ok (chain.filterMap fun k =>
        ((lk k).toOption).map fun v => ({ key := k, value := v } :
          KeyValue K V))) ∧
    (mt ≠ MapType.DevMap → ∀ pre k rest e, chain = pre ++ k :: rest →
      (∀ q ∈ pre, (lk q).isOk = true) → lk k = .error e →
      Map.itemsLinear mt lk chain = .error e) := by
  constructor
  · induction chain with
    | nil => rfl
    | cons k rest ih =>
      cases hlk : lk k with
      | error e =>
        simp [Map.itemsLinear, hlk, ih, Except.toOption]
      | ok v =>
        simp [Map.itemsLinear, hlk, ih, Except.toOption, Except.bind]
  · intro hmt pre k rest e hchain hpre hk
    subst hchain
    induction pre with
    | nil =>
      simp [Map.itemsLinear, hk, hmt]
    | cons q qre ih =>
      have hq := hpre q (by simp)
      obtain ⟨v, hv⟩ : ∃ v, lk q = .ok v := by
        cases hqq : lk q
        · rw [hqq] at hq
          simp [Except.isOk, Except.toBool] at hq
        · exact ⟨_, rfl⟩
      have ih2 := ih fun x hx => hpre x (by simp [hx])
      simp [Map.itemsLinear, hv, ih2, Except.bind]

/-- C9 witness: with a lookup oracle failing on key 1, the DevMap walk
over keys 0, 1, 2 skips key 1 and returns the other two pairs, while the
Hash walk aborts with the lookup error. -/
theorem C9_devmap_skip_witness :
    Map.itemsLinear MapType.DevMap lkSample [0, 1, 2] =
      .ok [{ key := 0, value := 0 }, { key := 2, value := 20 }] ∧
    Map.itemsLinear MapType.Hash lkSample [0, 1, 2] =
      .error (XDPError.new 2 "Error looking up elem") := by
  constructor
  · have h := (C9_devmap_skip lkSample [0, 1, 2] MapType.Hash).1
    simpa [lkSample, Except.toOption] using h
  · exact (C9_devmap_skip lkSample [0, 1, 2] MapType.Hash).2 (by decide)
      [0] 1 [2] (XDPError.new 2 "Error looking up elem") rfl
      (by decide) rfl

/-- C10: into_vec maps Single v to the one-element vector [v] and Multi vs
to vs itself; into_single maps Single v to v and Multi vs to the first
element of vs (modelled as head?), which exists exactly when vs is
non-empty, the empty case being the panic of swap_remove. -/
theorem C10_map_value_conversions {V : Type} (v : V) (vs : List V) :
    (MapValue.Single v).into_vec = [v] ∧
    (MapValue.Multi vs).into_vec = vs ∧
    (MapValue.Single v).into_single = some v ∧
    (MapValue.Multi vs).into_single = vs.head? ∧
    ((MapValue.Multi vs).into_single = none ↔ vs = []) := by
  refine ⟨rfl, rfl, rfl, rfl, ?_⟩
  simp [MapValue.into_single, List.head?_eq_none_iff]

end Rxdp
